import Mathlib

/-!
Verification of the global multi-entity search aggregation engine
(`supabase/functions/global-search/index.ts`), its recent-search retention
rule (`limit_recent_searches` trigger), the client search controller
(`useGlobalSearch`) and the command-palette index lookup (`GlobalSearch.tsx`).

The embedding is shallow: each TypeScript function is translated into an
executable Lean definition over explicit inputs (the rows the data store
would return, the caller context, the request body).  JavaScript strings
are modelled as Lean `String`/`List Char`; `toLowerCase` is modelled with
ASCII `Char.toLower`; `ILIKE '%s%'` is modelled as case-insensitive
substring containment (the aggregator only ever builds patterns of that
shape, with the substring taken literally).
-/

namespace ORAHV3

open List

/-! ### Character/string helpers shared by the embedding -/

/-- Lowercase a character list (model of JS `String.prototype.toLowerCase`
for the ASCII range relevant to the static catalogues and patterns). -/
def lowerL (cs : List Char) : List Char := cs.map Char.toLower

/-- Lowercase a string. -/
def lowerStr (s : String) : String := String.mk (lowerL s.toList)

/-- Model of JS `String.prototype.trim`: drop leading and trailing
whitespace. -/
def trimL (cs : List Char) : List Char :=
  ((cs.dropWhile Char.isWhitespace).reverse.dropWhile Char.isWhitespace).reverse

/-- Model of `trim` on strings. -/
def trimStr (s : String) : String := String.mk (trimL s.toList)

/-- Whether `sub` occurs as a contiguous infix of `hay`
(model of JS `String.prototype.includes`). -/
def infixOf (sub : List Char) : List Char → Bool
  | [] => sub.isEmpty
  | h :: t => sub.isPrefixOf (h :: t) || infixOf sub t

/-- Case-insensitive containment: model of `hay.toLowerCase().includes(sub)`
where `sub` is already lowercase. -/
def containsCI (hay : String) (sub : List Char) : Bool :=
  infixOf sub (lowerL hay.toList)

/-! ### Intent classifier (`detectQueryIntent`) -/

/-- Characters allowed by the regex class `[^\s@]`. -/
def emailAtomChar (c : Char) : Bool := !c.isWhitespace && c != '@'

/-- Model of `/^[^\s@]+@[^\s@]+\.[^\s@]+$/.test(query.trim())`:
exactly one `@`, a nonempty whitespace-free local part before it, and a
domain part containing a dot that is neither its first nor last
character. -/
def emailLike (query : String) : Bool :=
  let cs := trimL query.toList
  let l := cs.takeWhile (fun c => c != '@')
  match cs.drop l.length with
  | '@' :: d =>
    !l.isEmpty && l.all emailAtomChar && d.all emailAtomChar &&
      ((d.drop 1).dropLast.contains '.')
  | _ => false

/-- Characters of the regex class `[\d()-]` (the `\s` member of the
original class `[\d\s()-]` is vacuous after whitespace stripping). -/
def phoneChar (c : Char) : Bool := c.isDigit || c = '(' || c = ')' || c = '-'

/-- Model of `/^[+]?[\d\s()-]{7,}$/.test(query.replace(/\s/g, ''))`. -/
def phoneLike (query : String) : Bool :=
  let t := query.toList.filter (fun c => !c.isWhitespace)
  let rest := match t with
    | '+' :: r => r
    | r => r
  decide (rest.length ≥ 7) && rest.all phoneChar

/-- Hexadecimal digit, both cases (the regex uses the `i` flag). -/
def hexChar (c : Char) : Bool :=
  c.isDigit || ('a' ≤ c && c ≤ 'f') || ('A' ≤ c && c ≤ 'F')

/-- Model of the anchored case-insensitive UUID regex
`/^[0-9a-f]{8}-[0-9a-f]{4}-[0-9a-f]{4}-[0-9a-f]{4}-[0-9a-f]{12}$/i`
applied to the trimmed query. -/
def uuidLike (query : String) : Bool :=
  let cs := trimL query.toList
  decide (cs.length = 36) &&
    (List.range 36).all (fun i =>
      if i = 8 || i = 13 || i = 18 || i = 23 then cs.getD i ' ' = '-'
      else hexChar (cs.getD i ' '))

/-- Regex class `[\w.-]`. -/
def hostChar (c : Char) : Bool := c.isAlphanum || c = '_' || c = '.' || c = '-'

/-- Existence of a match of `[\w.-]+\.[a-z]{2,}` anchored at the start of
`cs` (the regex has no `$`, so trailing input is ignored, and the regex
test only needs two letters after the dot). -/
def hostMatch (cs : List Char) : Bool :=
  (List.range cs.length).any (fun i =>
    decide (0 < i) && cs.getD i ' ' = '.' && (cs.take i).all hostChar &&
      decide (i + 2 < cs.length) &&
      (cs.getD (i + 1) ' ').isAlpha && (cs.getD (i + 2) ' ').isAlpha)

/-- Strip an optional case-insensitive `http://` or `https://` scheme
prefix.  (When a scheme prefix is present, the schemeless alternative of
the regex can never match: the host class does not contain `:`.) -/
def stripScheme (cs : List Char) : List Char :=
  if lowerL (cs.take 7) = "http://".toList then cs.drop 7
  else if lowerL (cs.take 8) = "https://".toList then cs.drop 8
  else cs

/-- Model of `/^(https?:\/\/)?([\w.-]+)\.([a-z]{2,})/i.test(query.trim())`. -/
def urlLike (query : String) : Bool := hostMatch (stripScheme (trimL query.toList))

/-- Model of `detectQueryIntent`: independent pattern checks pushed in source order,
falling back to `["text"]` when none matched. -/
def detectQueryIntent (query : String) : List String :=
  let intents :=
    (if emailLike query then ["email"] else []) ++
    (if phoneLike query then ["phone"] else []) ++
    (if uuidLike query then ["id"] else []) ++
    (if urlLike query then ["url"] else [])
  if intents.isEmpty then ["text"] else intents

/-! ### Query sanitizer / fuzzy-pattern builder -/

/-- The characters replaced by `escapeSearchQuery`
(regex class `[&|!():<>*\\"']`). -/
def specialChar (c : Char) : Bool :=
  c = '&' || c = '|' || c = '!' || c = '(' || c = ')' || c = ':' ||
  c = '<' || c = '>' || c = '*' || c = '\\' || c = '"' || c = Char.ofNat 39

/-- Model of `escapeSearchQuery`: replace each unsafe character by a space, then
trim. -/
def escapeSearchQuery (query : String) : String :=
  trimStr (String.mk (query.toList.map (fun c => if specialChar c then ' ' else c)))

/-- Model of `createFuzzyPattern`: tokenize the sanitized query on whitespace, drop
empty tokens, suffix each with `:*` and join with a logical AND.  (The
aggregator computes this value as `tsQuery` but never passes it to any
adapter.) -/
def createFuzzyPattern (query : String) : String :=
  let escaped := escapeSearchQuery query
  let words := (escaped.split Char.isWhitespace).filter (fun w => w.length > 0)
  String.intercalate " & " (words.map (fun w => w ++ ":*"))

/-- The pattern the handler builds for every ILIKE filter:
`` `%${query.toLowerCase()}%` `` — note: the *raw* query, lowercased, not
the sanitized one. -/
def searchPattern (query : String) : String :=
  "%" ++ lowerStr query ++ "%"

/-- Interpretation of `field ILIKE pat` for the `'%sub%'`-shaped patterns
built by `searchPattern`, with the enclosed substring taken literally:
case-insensitive containment of the substring between the two enclosing
percent wildcards. -/
def likeMatch (field : String) (pat : String) : Bool :=
  let sub := match pat.toList with
    | '%' :: rest => rest.dropLast
    | cs => cs
  infixOf (lowerL sub) (lowerL field.toList)

/-- ILIKE against a nullable column: a SQL NULL never matches. -/
def likeMatchOpt (field : Option String) (pat : String) : Bool :=
  match field with
  | none => false
  | some f => likeMatch f pat

/-! ### Data model -/

/-- The uniform result shape (`interface SearchResult`).  The free-form
`metadata` bag is omitted: no specified behaviour inspects it. -/
structure SearchResult where
  id : String
  type : String
  title : String
  subtitle : String
  redirectUrl : String
  priorityScore : Int
  deriving Repr, DecidableEq

instance : Inhabited SearchResult :=
  ⟨⟨"", "", "", "", "", 0⟩⟩

/-- A row of the `leads` table as selected by the leads adapter. -/
structure LeadRow where
  id : String
  companyId : String
  name : Option String
  email : Option String
  mobile : Option String
  status : String
  source : String
  deriving Repr, DecidableEq

/-- A row of the `users` table as selected by the staff-account adapter. -/
structure UserRow where
  id : String
  companyId : String
  name : Option String
  email : Option String
  phone : Option String
  role : String
  deriving Repr, DecidableEq

/-- A row of the `agents` table as selected by the agent adapter. -/
structure AgentRow where
  id : String
  companyId : String
  name : String
  voice : String
  isActive : Bool
  deriving Repr, DecidableEq

/-- A row of the `calls` table as selected by the call adapter, with the
`leads!inner(id, name)` joined lead name inlined. -/
structure CallRow where
  id : String
  companyId : String
  status : String
  duration : Int
  summary : Option String
  leadName : Option String
  deriving Repr, DecidableEq

/-- The external data store visible to the four dynamic adapters: the rows
each table holds, in table order (the adapters issue no ORDER BY). -/
structure Database where
  leads : List LeadRow
  users : List UserRow
  agents : List AgentRow
  calls : List CallRow
  deriving Repr, DecidableEq

/-- The caller context the handler derives before aggregating
(`user.id`, `userProfile.company_id`, `userProfile.role`). -/
structure CallerCtx where
  userId : String
  companyId : String
  role : String
  deriving Repr, DecidableEq

/-- JS `x || y` for a nullable string `x`: `y` when `x` is null or the
empty string (both are falsy). -/
def jsOr (x : Option String) (y : String) : String :=
  match x with
  | none => y
  | some s => if s = "" then y else s

/-- Model of `.limit(n)` on a store query.  The handler forwards the request body's
`limit` unchecked; a non-negative bound keeps the first `n` rows, and a
negative bound makes the store reject the query, which the adapter error
path turns into an empty list. -/
def dbLimit (n : Int) (l : List α) : List α :=
  if 0 ≤ n then l.take n.toNat else []

/-- JS `Array.prototype.slice(0, e)`: for a negative `e` the end index
counts from the end of the array. -/
def jsSlice (e : Int) (l : List α) : List α :=
  if 0 ≤ e then l.take e.toNat else l.take (max ((l.length : Int) + e) 0).toNat

/-- Model of `Array.prototype.map` with the element index
(`(x, idx) => ...` callbacks), starting from `i`. -/
def mapIdxFrom (f : Nat → α → β) (i : Nat) : List α → List β
  | [] => []
  | x :: xs => f i x :: mapIdxFrom f (i + 1) xs

/-- Model of `Array.prototype.map` with the element index. -/
def jsMapIdx (f : Nat → α → β) (l : List α) : List β := mapIdxFrom f 0 l

/-! ### Per-source search adapters -/

/-- Model of `searchLeads`: tenant-scoped, intent-steered substring filters, capped
by `limit`, mapped to results with priority `100 - idx`. -/
def searchLeads (db : Database) (filters : List String) (companyId : String)
    (intents : List String) (pat : String) (limit : Int) : List SearchResult :=
  if filters.length > 0 && !(filters.contains "leads") then []
  else
    let tenantRows := db.leads.filter (fun l => l.companyId = companyId)
    let matched :=
      if intents.contains "email" then
        tenantRows.filter (fun l => likeMatchOpt l.email pat)
      else if intents.contains "phone" then
        tenantRows.filter (fun l => likeMatchOpt l.mobile pat)
      else
        tenantRows.filter (fun l =>
          likeMatchOpt l.name pat || likeMatchOpt l.email pat ||
            likeMatchOpt l.mobile pat)
    jsMapIdx (fun idx l =>
      { id := l.id
        type := "lead"
        title := jsOr l.name "Unknown Lead"
        subtitle := jsOr l.email (jsOr l.mobile l.status)
        redirectUrl := "/leads/" ++ l.id
        priorityScore := 100 - (idx : Int) }) (dbLimit limit matched)

/-- Model of `searchUsers` (staff-account adapter): empty for non-privileged
callers, otherwise tenant-scoped name/email substring match, priority
`80 - idx`. -/
def searchUsers (db : Database) (filters : List String) (companyId : String)
    (isAdmin : Bool) (pat : String) (limit : Int) : List SearchResult :=
  if filters.length > 0 && !(filters.contains "users") then []
  else if !isAdmin then []
  else
    let matched := db.users.filter (fun u =>
      u.companyId = companyId &&
        (likeMatchOpt u.name pat || likeMatchOpt u.email pat))
    jsMapIdx (fun idx u =>
      { id := u.id
        type := "user"
        title := jsOr u.name "Unknown User"
        subtitle := jsOr u.email u.role
        redirectUrl := "/settings"
        priorityScore := 80 - (idx : Int) }) (dbLimit limit matched)

/-- Model of `searchAgents`: tenant-scoped name substring match, priority
`70 - idx`. -/
def searchAgents (db : Database) (filters : List String) (companyId : String)
    (pat : String) (limit : Int) : List SearchResult :=
  if filters.length > 0 && !(filters.contains "agents") then []
  else
    let matched := db.agents.filter (fun a =>
      a.companyId = companyId && likeMatch a.name pat)
    jsMapIdx (fun idx a =>
      { id := a.id
        type := "agent"
        title := a.name
        subtitle := a.voice ++ " voice - " ++ (if a.isActive then "Active" else "Inactive")
        redirectUrl := "/agents"
        priorityScore := 70 - (idx : Int) }) (dbLimit limit matched)

/-- Model of `searchCalls`: tenant-scoped summary substring match, joined lead name
in the title, priority `60 - idx`. -/
def searchCalls (db : Database) (filters : List String) (companyId : String)
    (pat : String) (limit : Int) : List SearchResult :=
  if filters.length > 0 && !(filters.contains "calls") then []
  else
    let matched := db.calls.filter (fun c =>
      c.companyId = companyId && likeMatchOpt c.summary pat)
    jsMapIdx (fun idx c =>
      { id := c.id
        type := "call"
        title := "Call with " ++ jsOr c.leadName "Unknown"
        subtitle := jsOr (c.summary.map (fun s => String.mk (s.toList.take 50))) c.status
        redirectUrl := "/call-analytics"
        priorityScore := 60 - (idx : Int) }) (dbLimit limit matched)

/-- A static catalogue entry of the settings adapter. -/
structure SettingsItem where
  id : String
  title : String
  subtitle : String
  url : String
  deriving Repr, DecidableEq

/-- The static settings catalogue (`settingsItems`). -/
def settingsItems : List SettingsItem :=
  [ ⟨"profile", "Profile Settings", "Manage your profile", "/settings"⟩,
    ⟨"notifications", "Notification Settings", "Configure alerts", "/settings"⟩,
    ⟨"integrations", "Integrations", "Connect external services", "/integrations"⟩,
    ⟨"api-keys", "API Keys", "Manage API credentials", "/settings"⟩,
    ⟨"company", "Company Settings", "Organization preferences", "/settings"⟩ ]

/-- Model of `searchSettings`: pure in-memory filter of the static catalogue against
the lowercased raw query, priority `50 - idx` among the matches. -/
def searchSettings (filters : List String) (query : String) : List SearchResult :=
  if filters.length > 0 && !(filters.contains "settings") then []
  else
    let lowerQuery := lowerL query.toList
    let matched := settingsItems.filter (fun item =>
      containsCI item.title lowerQuery || containsCI item.subtitle lowerQuery)
    jsMapIdx (fun idx item =>
      { id := item.id
        type := "setting"
        title := item.title
        subtitle := item.subtitle
        redirectUrl := item.url
        priorityScore := 50 - (idx : Int) }) matched

/-- A static catalogue entry of the navigation adapter. -/
structure NavItem where
  id : String
  title : String
  subtitle : String
  url : String
  keywords : List String
  deriving Repr, DecidableEq

/-- The static navigation catalogue (`navItems`). -/
def navItems : List NavItem :=
  [ ⟨"dashboard", "Dashboard", "Overview & stats", "/dashboard",
      ["home", "overview", "stats", "metrics"]⟩,
    ⟨"leads", "Leads", "Manage leads", "/leads",
      ["contacts", "prospects", "customers"]⟩,
    ⟨"analytics", "Analytics", "Charts & insights", "/analytics",
      ["reports", "data", "charts", "graphs"]⟩,
    ⟨"call-analytics", "Call Analytics", "Call metrics", "/call-analytics",
      ["calls", "phone", "conversations"]⟩,
    ⟨"agents", "Agents", "AI voice agents", "/agents",
      ["ai", "voice", "bots", "assistants"]⟩,
    ⟨"integrations", "Integrations", "Connect apps", "/integrations",
      ["connect", "apps", "services", "api"]⟩,
    ⟨"settings", "Settings", "Preferences", "/settings",
      ["config", "preferences", "account"]⟩ ]

/-- Model of `searchNavigation`: pure in-memory filter over title, subtitle and
keywords, priority `90 - idx` among the matches.  It takes no filter
argument: the source never gates it on the filter set. -/
def searchNavigation (query : String) : List SearchResult :=
  let lowerQuery := lowerL query.toList
  let matched := navItems.filter (fun item =>
    containsCI item.title lowerQuery || containsCI item.subtitle lowerQuery ||
      item.keywords.any (fun k => infixOf lowerQuery k.toList))
  jsMapIdx (fun idx item =>
    { id := item.id
      type := "navigation"
      title := item.title
      subtitle := item.subtitle
      redirectUrl := item.url
      priorityScore := 90 - (idx : Int) }) matched

/-! ### Aggregator / ranker -/

/-- The ordering the merge step sorts by:
`results.sort((a, b) => b.priorityScore - a.priorityScore)` keeps `a`
before `b` exactly when the comparator is non-positive, i.e. when
`b.priorityScore ≤ a.priorityScore`. -/
def scoreGE (a b : SearchResult) : Prop := b.priorityScore ≤ a.priorityScore

instance : DecidableRel scoreGE := fun _ _ => Int.decLe _ _

instance : IsTotal SearchResult scoreGE :=
  ⟨fun a b => le_total b.priorityScore a.priorityScore⟩

instance : IsTrans SearchResult scoreGE :=
  ⟨fun _ _ _ h h' => le_trans h' h⟩

/-- The stable descending sort of the merged sequence.  ECMAScript
requires `Array.prototype.sort` to be stable, and a stable sort for a
total preorder is unique, so a stable insertion sort is an exact model. -/
def sortResults (l : List SearchResult) : List SearchResult :=
  List.insertionSort scoreGE l

/-- Append a result to its category bucket, creating the bucket at the end
on first occurrence (JS object string keys preserve insertion order). -/
def addToCat : List (String × List SearchResult) → SearchResult →
    List (String × List SearchResult)
  | [], r => [(r.type, [r])]
  | (t, rs) :: rest, r =>
    if t = r.type then (t, rs ++ [r]) :: rest else (t, rs) :: addToCat rest r

/-- Build the category map by a single pass over the sorted sequence. -/
def buildCategories (results : List SearchResult) :
    List (String × List SearchResult) :=
  results.foldl addToCat []

/-- The success body of a full aggregation
(`{ results, categories, totalCount, query, intents }`). -/
structure SearchResponse where
  results : List SearchResult
  categories : List (String × List SearchResult)
  totalCount : Nat
  query : String
  intents : List String
  deriving Repr, DecidableEq

/-- The handler outcomes the claims distinguish.  `okEmpty` is the
short-circuit HTTP 200 whose body is exactly
`{ results: [], categories: {} }`. -/
inductive SearchOutcome where
  | ok (body : SearchResponse) : SearchOutcome
  | okEmpty : SearchOutcome
  | err (status : Nat) (message : String) : SearchOutcome
  deriving Repr, DecidableEq

/-- The merged, sorted sequence the handler builds for a valid query: the
six adapters' outputs concatenated in source order (lead, staff-account,
agent, call, settings, navigation), then stably sorted by priority score
descending. -/
def mergedResults (db : Database) (ctx : CallerCtx) (query : String)
    (filters : List String) (limit : Int) : List SearchResult :=
  let intents := detectQueryIntent query
  let pat := searchPattern query
  let isAdmin := ctx.role = "admin"
  sortResults
    (searchLeads db filters ctx.companyId intents pat limit ++
     searchUsers db filters ctx.companyId isAdmin pat limit ++
     searchAgents db filters ctx.companyId pat limit ++
     searchCalls db filters ctx.companyId pat limit ++
     searchSettings filters query ++
     searchNavigation query)

/-! ### Recent-searches store (`recent_searches` table,
`limit_recent_searches` trigger) -/

/-- A row of `recent_searches`.  The table's `UNIQUE(user_id, query)`
constraint is the store invariant `recentUnique` below. -/
structure RecentRow where
  userId : String
  query : String
  createdAt : Nat
  deriving Repr, DecidableEq

/-- The constraint `UNIQUE(user_id, query)`: no two rows share the caller and the query
text. -/
def recentUnique (store : List RecentRow) : Prop :=
  store.Pairwise (fun r s => ¬(r.userId = s.userId ∧ r.query = s.query))

instance (store : List RecentRow) : Decidable (recentUnique store) := by
  unfold recentUnique
  infer_instance

/-- Recency order on rows (`ORDER BY created_at DESC`). -/
def tsGE (r s : RecentRow) : Prop := s.createdAt ≤ r.createdAt

instance : DecidableRel tsGE := fun _ _ => Nat.decLe _ _

instance : IsTotal RecentRow tsGE := ⟨fun r s => le_total s.createdAt r.createdAt⟩

instance : IsTrans RecentRow tsGE := ⟨fun _ _ _ h h' => le_trans h' h⟩

/-- The `limit_recent_searches` trigger body: delete the caller's rows
whose id is not among the 10 most recent
(`ORDER BY created_at DESC LIMIT 10`). -/
def pruneRecent (store : List RecentRow) (u : String) : List RecentRow :=
  let keep := (List.insertionSort tsGE (store.filter (fun r => r.userId = u))).take 10
  store.filter (fun r => r.userId ≠ u || r ∈ keep)

/-- The `recent_searches` upsert with `onConflict: 'user_id,query'`: a
conflicting row gets its timestamp refreshed in place (an UPDATE, which
does not fire the AFTER INSERT trigger); otherwise the row is appended
and the trigger prunes the caller's rows to the 10 most recent. -/
def upsertRecent (store : List RecentRow) (u q : String) (t : Nat) :
    List RecentRow :=
  if store.any (fun r => r.userId = u && r.query = q) then
    store.map (fun r =>
      if r.userId = u && r.query = q then { r with createdAt := t } else r)
  else
    pruneRecent (store ++ [{ userId := u, query := q, createdAt := t }]) u

/-! ### The request handler (`Deno.serve` body, after authentication) -/

/-- The aggregation phase of the handler, from the parsed request body to
the HTTP outcome and the updated recent-searches store.  `query?` and
`limit?` are `none` when the field is absent from the body (destructuring
defaults apply only then).  Authentication and profile lookup happen
upstream and are modelled by `ctx` being available.  `historyWriteFails`
says whether the recent-searches upsert fails; the store client reports
that failure in-band (never by throwing), and the handler ignores it. -/
def globalSearch (db : Database) (ctx : CallerCtx) (query? : Option String)
    (filters : List String) (limit? : Option Int) (store : List RecentRow)
    (now : Nat) (historyWriteFails : Bool) : SearchOutcome × List RecentRow :=
  let limit := limit?.getD 10
  match query? with
  | none => (SearchOutcome.okEmpty, store)
  | some query =>
    if query.length < 2 then (SearchOutcome.okEmpty, store)
    else
      let intents := detectQueryIntent query
      let results := mergedResults db ctx query filters limit
      let categories := buildCategories results
      let store' :=
        if historyWriteFails then store
        else upsertRecent store ctx.userId (trimStr query) now
      (SearchOutcome.ok
        { results := jsSlice limit results
          categories := categories
          totalCount := results.length
          query := query
          intents := intents }, store')

/-! ### Client search controller (`useGlobalSearch`) -/

/-- The client state the claims talk about, plus the identity of the
current `AbortController` modelled as a generation counter: `search`
aborts the previous controller and installs a fresh one before issuing
its request, so a response belongs to the current generation exactly when
its request was never superseded. -/
structure ClientState where
  results : List SearchResult
  categories : List (String × List SearchResult)
  error : Option String
  isLoading : Bool
  generation : Nat
  deriving Repr, DecidableEq

/-- Model of `useGlobalSearch.search` up to its suspension point: abort the
previous in-flight controller (invalidating its token), install a new
one, `setIsLoading(true)`, `setError(null)`, send the request. -/
def issueSearch (s : ClientState) : ClientState :=
  { s with generation := s.generation + 1, isLoading := true, error := none }

/-- The network payload of a completed search response. -/
structure SearchPayload where
  results : List SearchResult
  categories : List (String × List SearchResult)
  deriving Repr, DecidableEq

/-- Arrival of the response of the request issued at generation `g`.  A
request whose controller was aborted (`g ≠ s.generation`) rejects with
`AbortError`; the catch block returns without touching results,
categories or error, and only the `finally` clause runs. -/
def deliverSuccess (s : ClientState) (g : Nat) (p : SearchPayload) : ClientState :=
  if g = s.generation then
    { s with results := p.results, categories := p.categories, isLoading := false }
  else
    { s with isLoading := false }

/-- Arrival of a failure for the request issued at generation `g`.  An
aborted request rejects with `AbortError` and is discarded; a live
request's failure surfaces the message and clears results and
categories. -/
def deliverFailure (s : ClientState) (g : Nat) (msg : String) : ClientState :=
  if g = s.generation then
    { s with error := some msg, results := [], categories := [], isLoading := false }
  else
    { s with isLoading := false }

/-! ### Command-palette index lookup (`GlobalSearch.tsx`) -/

/-- Model of `flatResults = Object.values(categories).flat()`. -/
def flatCategories (cats : List (String × List SearchResult)) : List SearchResult :=
  (cats.map Prod.snd).flatten

/-- Model of `flatResults.findIndex(r => r.id === result.id)`: the palette locates
the selected row by the first index whose id matches. -/
def findIndexById (l : List SearchResult) (i : String) : Nat :=
  l.findIdx (fun r => r.id = i)

/-! ### Helper lemmas -/

theorem mem_mapIdxFrom {α β : Type} {f : Nat → α → β} {b : β} :
    ∀ {i : Nat} {l : List α}, b ∈ mapIdxFrom f i l → ∃ j x, x ∈ l ∧ b = f j x := by
  intro i l
  induction l generalizing i with
  | nil => intro h; cases h
  | cons x xs ih =>
    intro h
    rcases List.mem_cons.mp h with h | h
    · exact ⟨i, x, List.mem_cons_self x xs, h⟩
    · obtain ⟨j, y, hy, hb⟩ := ih h
      exact ⟨j, y, List.mem_cons_of_mem x hy, hb⟩

theorem mem_jsMapIdx {α β : Type} {f : Nat → α → β} {l : List α} {b : β}
    (h : b ∈ jsMapIdx f l) : ∃ j x, x ∈ l ∧ b = f j x :=
  mem_mapIdxFrom h

theorem type_of_searchLeads {db filters cid intents pat limit r}
    (h : r ∈ searchLeads db filters cid intents pat limit) : r.type = "lead" := by
  unfold searchLeads at h
  split at h
  · cases h
  · obtain ⟨j, x, _, rfl⟩ := mem_jsMapIdx h
    rfl

theorem type_of_searchUsers {db filters cid isAdmin pat limit r}
    (h : r ∈ searchUsers db filters cid isAdmin pat limit) : r.type = "user" := by
  unfold searchUsers at h
  split at h
  · cases h
  · split at h
    · cases h
    · obtain ⟨j, x, _, rfl⟩ := mem_jsMapIdx h
      rfl

theorem type_of_searchAgents {db filters cid pat limit r}
    (h : r ∈ searchAgents db filters cid pat limit) : r.type = "agent" := by
  unfold searchAgents at h
  split at h
  · cases h
  · obtain ⟨j, x, _, rfl⟩ := mem_jsMapIdx h
    rfl

theorem type_of_searchCalls {db filters cid pat limit r}
    (h : r ∈ searchCalls db filters cid pat limit) : r.type = "call" := by
  unfold searchCalls at h
  split at h
  · cases h
  · obtain ⟨j, x, _, rfl⟩ := mem_jsMapIdx h
    rfl

theorem type_of_searchSettings {filters query r}
    (h : r ∈ searchSettings filters query) : r.type = "setting" := by
  unfold searchSettings at h
  split at h
  · cases h
  · obtain ⟨j, x, _, rfl⟩ := mem_jsMapIdx h
    rfl

theorem type_of_searchNavigation {query r}
    (h : r ∈ searchNavigation query) : r.type = "navigation" := by
  unfold searchNavigation at h
  obtain ⟨j, x, _, rfl⟩ := mem_jsMapIdx h
  rfl

theorem sortResults_perm (l : List SearchResult) : sortResults l ~ l :=
  List.perm_insertionSort scoreGE l

theorem sortResults_sorted (l : List SearchResult) :
    (sortResults l).Pairwise scoreGE :=
  List.sorted_insertionSort scoreGE l

theorem sortResults_stable {a b : SearchResult} {l : List SearchResult}
    (hscore : a.priorityScore = b.priorityScore) (hsub : [a, b] <+ l) :
    [a, b] <+ sortResults l :=
  List.pair_sublist_insertionSort (le_of_eq hscore.symm) hsub

/-- Total bucket size of a category map. -/
def catsSize (cats : List (String × List SearchResult)) : Nat :=
  (cats.map (fun p => p.2.length)).sum

theorem catsSize_addToCat (acc : List (String × List SearchResult))
    (r : SearchResult) : catsSize (addToCat acc r) = catsSize acc + 1 := by
  induction acc with
  | nil => rfl
  | cons p rest ih =>
    obtain ⟨t, rs⟩ := p
    unfold addToCat
    split
    · simp [catsSize]
      omega
    · simp only [catsSize, List.map_cons, List.sum_cons] at ih ⊢
      omega

theorem catsSize_foldl (l : List SearchResult) :
    ∀ acc, catsSize (l.foldl addToCat acc) = catsSize acc + l.length := by
  induction l with
  | nil => intro acc; simp
  | cons r t ih =>
    intro acc
    simp only [List.foldl_cons, ih, catsSize_addToCat, List.length_cons]
    omega

theorem catsSize_buildCategories (l : List SearchResult) :
    catsSize (buildCategories l) = l.length := by
  unfold buildCategories
  rw [catsSize_foldl l []]
  simp [catsSize]

theorem mem_addToCat {acc : List (String × List SearchResult)}
    {r x : SearchResult} {p : String × List SearchResult}
    (h : p ∈ addToCat acc r) (hx : x ∈ p.2) :
    (∃ p0 ∈ acc, x ∈ p0.2) ∨ x = r := by
  induction acc with
  | nil =>
    rcases List.mem_singleton.mp h with rfl
    rcases List.mem_singleton.mp hx with rfl
    exact Or.inr rfl
  | cons q rest ih =>
    obtain ⟨t, rs⟩ := q
    unfold addToCat at h
    split at h
    · rcases List.mem_cons.mp h with rfl | h
      · rcases List.mem_append.mp hx with hx | hx
        · exact Or.inl ⟨(t, rs), List.mem_cons_self _ _, hx⟩
        · exact Or.inr (List.mem_singleton.mp hx)
      · exact Or.inl ⟨_, List.mem_cons_of_mem _ h, hx⟩
    · rcases List.mem_cons.mp h with rfl | h
      · exact Or.inl ⟨_, List.mem_cons_self _ _, hx⟩
      · rcases ih h with ⟨p0, hp0, hxp0⟩ | hxr
        · exact Or.inl ⟨p0, List.mem_cons_of_mem _ hp0, hxp0⟩
        · exact Or.inr hxr

theorem mem_foldl_addToCat {x : SearchResult} :
    ∀ (l : List SearchResult) (acc : List (String × List SearchResult))
      {p : String × List SearchResult},
      p ∈ l.foldl addToCat acc → x ∈ p.2 → x ∈ l ∨ ∃ p0 ∈ acc, x ∈ p0.2 := by
  intro l
  induction l with
  | nil => intro acc p h hx; exact Or.inr ⟨p, h, hx⟩
  | cons r t ih =>
    intro acc p h hx
    rcases ih (addToCat acc r) h hx with hxt | ⟨p0, hp0, hxp0⟩
    · exact Or.inl (List.mem_cons_of_mem r hxt)
    · rcases mem_addToCat hp0 hxp0 with ⟨p1, hp1, hxp1⟩ | rfl
      · exact Or.inr ⟨p1, hp1, hxp1⟩
      · exact Or.inl (List.mem_cons_self _ _)

theorem mem_of_mem_buildCategories {l : List SearchResult}
    {p : String × List SearchResult} {x : SearchResult}
    (h : p ∈ buildCategories l) (hx : x ∈ p.2) : x ∈ l := by
  rcases mem_foldl_addToCat l [] h hx with hxl | ⟨p0, hp0, _⟩
  · exact hxl
  · cases hp0

theorem jsSlice_sublist (e : Int) (l : List α) : jsSlice e l <+ l := by
  unfold jsSlice
  split <;> exact List.take_sublist _ _

theorem length_jsSlice_le_self (e : Int) (l : List α) :
    (jsSlice e l).length ≤ l.length :=
  (jsSlice_sublist e l).length_le

theorem length_jsSlice_le {e : Int} (he : 0 ≤ e) (l : List α) :
    ((jsSlice e l).length : Int) ≤ e := by
  unfold jsSlice
  rw [if_pos he]
  calc ((l.take e.toNat).length : Int) ≤ (e.toNat : Int) := by
        exact_mod_cast List.length_take_le _ _
    _ = e := Int.toNat_of_nonneg he

theorem dropWhile_eq_self_of_all {p : Char → Bool} {cs : List Char}
    (h : ∀ c ∈ cs, p c = false) : cs.dropWhile p = cs := by
  cases cs with
  | nil => rfl
  | cons c t => simp [List.dropWhile_cons, h c (List.mem_cons_self c t)]

theorem trimL_eq_self {cs : List Char}
    (h : ∀ c ∈ cs, c.isWhitespace = false) : trimL cs = cs := by
  unfold trimL
  rw [dropWhile_eq_self_of_all h,
    dropWhile_eq_self_of_all (fun c hc => h c (List.mem_reverse.mp hc)),
    List.reverse_reverse]

theorem escape_map_noop {l : List Char} (h : ∀ c ∈ l, specialChar c = false) :
    l.map (fun c => if specialChar c then ' ' else c) = l := by
  induction l with
  | nil => rfl
  | cons c t ih =>
    simp only [List.map_cons, h c (List.mem_cons_self c t), if_false, List.cons.injEq]
    exact ⟨rfl, ih fun d hd => h d (List.mem_cons_of_mem c hd)⟩

theorem escapeSearchQuery_eq_self {q : String}
    (h : ∀ c ∈ q.toList, specialChar c = false ∧ c.isWhitespace = false) :
    escapeSearchQuery q = q := by
  unfold escapeSearchQuery trimStr
  rw [show (String.mk (q.toList.map (fun c => if specialChar c then ' ' else c))).toList
      = q.toList.map (fun c => if specialChar c then ' ' else c) from rfl,
    escape_map_noop (fun c hc => (h c hc).1),
    trimL_eq_self (fun c hc => (h c hc).2)]
  rfl

/-- The staff-account adapter short-circuits to the empty sequence for a
non-privileged caller. -/
theorem searchUsers_not_admin (db : Database) (filters : List String)
    (companyId pat : String) (limit : Int) :
    searchUsers db filters companyId false pat limit = [] := by
  unfold searchUsers
  split
  · rfl
  · rfl

/-- Every member of the handler's merged sequence comes from one of the
six adapters. -/
theorem mem_mergedResults {db ctx query filters} {limit : Int} {r : SearchResult}
    (h : r ∈ mergedResults db ctx query filters limit) :
    r ∈ searchLeads db filters ctx.companyId (detectQueryIntent query)
        (searchPattern query) limit ∨
      r ∈ searchUsers db filters ctx.companyId (decide (ctx.role = "admin"))
        (searchPattern query) limit ∨
      r ∈ searchAgents db filters ctx.companyId (searchPattern query) limit ∨
      r ∈ searchCalls db filters ctx.companyId (searchPattern query) limit ∨
      r ∈ searchSettings filters query ∨
      r ∈ searchNavigation query := by
  have hm := (sortResults_perm _).mem_iff.mp h
  simpa using hm

/-- For a non-privileged caller no element of the merged sequence has
type `"user"`. -/
theorem mergedResults_no_user_type {db ctx query filters} {limit : Int}
    (hrole : ctx.role ≠ "admin") {r : SearchResult}
    (h : r ∈ mergedResults db ctx query filters limit) : r.type ≠ "user" := by
  rcases mem_mergedResults h with h | h | h | h | h | h
  · rw [type_of_searchLeads h]; decide
  · rw [decide_eq_false hrole, searchUsers_not_admin] at h
    cases h
  · rw [type_of_searchAgents h]; decide
  · rw [type_of_searchCalls h]; decide
  · rw [type_of_searchSettings h]; decide
  · rw [type_of_searchNavigation h]; decide

/-- Uniqueness is preserved by the timestamp-refresh branch of the
upsert: the map changes only `createdAt`. -/
theorem recentUnique_touch {store : List RecentRow} (u q : String) (t : Nat)
    (huniq : recentUnique store) :
    recentUnique (store.map (fun r =>
      if r.userId = u && r.query = q then { r with createdAt := t } else r)) := by
  rw [recentUnique, List.pairwise_map]
  refine huniq.imp_of_mem ?_
  intro r s _ _ hrs hcontra
  apply hrs
  revert hcontra
  split <;> split <;> simp_all

/-- The trigger prune bounds the caller's row count by 10 whenever the
store satisfies the uniqueness constraint. -/
theorem countP_pruneRecent_le {store : List RecentRow} {u : String}
    (huniq : recentUnique store) :
    (pruneRecent store u).countP (fun r => r.userId = u) ≤ 10 := by
  unfold pruneRecent
  rw [List.countP_eq_length_filter, List.filter_filter]
  set keep := (List.insertionSort tsGE (store.filter (fun r => r.userId = u))).take 10 with hkeep
  set d := store.filter (fun r =>
    decide (r.userId = u) && (decide (r.userId ≠ u) || decide (r ∈ keep))) with hd
  have hdsub : d <+ store := List.filter_sublist store
  have hmem : ∀ r ∈ d, r.userId = u ∧ r ∈ keep := by
    intro r hr
    have hcond := List.of_mem_filter hr
    simp only [Bool.and_eq_true, Bool.or_eq_true, decide_eq_true_eq] at hcond
    rcases hcond with ⟨h1, h2 | h2⟩
    · exact absurd h1 h2
    · exact ⟨h1, h2⟩
  have hnodup : d.Nodup := by
    refine (huniq.sublist hdsub).imp_of_mem ?_
    intro r s hr hs hrs
    intro hEq
    exact hrs ⟨by rw [hEq], by rw [hEq]⟩
  have hsubset : d ⊆ keep := fun r hr => (hmem r hr).2
  calc d.length ≤ keep.length := (hnodup.subperm hsubset).length_le
    _ ≤ 10 := List.length_take_le _ _

/-- Appending a non-conflicting row preserves the uniqueness
constraint. -/
theorem recentUnique_append {store : List RecentRow} {u q : String} {t : Nat}
    (huniq : recentUnique store)
    (hnone : store.any (fun r => r.userId = u && r.query = q) = false) :
    recentUnique (store ++ [{ userId := u, query := q, createdAt := t }]) := by
  rw [recentUnique, List.pairwise_append]
  refine ⟨huniq, List.pairwise_singleton _ _, ?_⟩
  intro a ha b hb hcontra
  rcases List.mem_singleton.mp hb with rfl
  have : store.any (fun r => r.userId = u && r.query = q) = true :=
    List.any_eq_true.mpr ⟨a, ha, by simp [hcontra.1, hcontra.2]⟩
  rw [hnone] at this
  cases this

/-- The insert branch of the upsert preserves uniqueness: the appended
row conflicts with no existing one, and the prune is a filter. -/
theorem recentUnique_insert {store : List RecentRow} {u q : String} {t : Nat}
    (huniq : recentUnique store)
    (hnone : store.any (fun r => r.userId = u && r.query = q) = false) :
    recentUnique (pruneRecent (store ++ [{ userId := u, query := q, createdAt := t }]) u) :=
  (recentUnique_append huniq hnone).sublist (List.filter_sublist _)

/-- The tenant of the C6 scenario: a lead "John Smith" and a staff
account "John Doe" in the same company. -/
def johnDb : Database :=
  ⟨[⟨"ld1", "c1", some "John Smith", some "js@x.com", some "+15550101", "new", "website"⟩],
    [⟨"us1", "c1", some "John Doe", some "jd@x.com", none, "user"⟩], [], []⟩

/-! ### Claim theorems -/

/-- C1: for every query of length at least 2 (and a non-negative requested
limit, per the data-model invariant `limit > 0`), the response's flat
`results` field is the sorted merged sequence truncated to at most `limit`
entries, while `categories` and `totalCount` are built from the entire
untruncated merged sequence; hence `results.length ≤ limit` and
`results.length ≤` the sum of the lengths of all category buckets. -/
theorem results_capped_categories_uncapped (db : Database) (ctx : CallerCtx)
    (q : String) (filters : List String) (limit : Int) (store : List RecentRow)
    (now : Nat) (hist : Bool) (hlim : 0 ≤ limit) (hq : 2 ≤ q.length) :
    ∃ body,
      (globalSearch db ctx (some q) filters (some limit) store now hist).fst =
        SearchOutcome.ok body ∧
      body.results = jsSlice limit (mergedResults db ctx q filters limit) ∧
      body.categories = buildCategories (mergedResults db ctx q filters limit) ∧
      body.totalCount = (mergedResults db ctx q filters limit).length ∧
      ((body.results.length : Int) ≤ limit ∧
        body.results.length ≤ catsSize body.categories) := by
  have hneg : ¬(q.length < 2) := by omega
  refine ⟨⟨jsSlice limit (mergedResults db ctx q filters limit),
      buildCategories (mergedResults db ctx q filters limit),
      (mergedResults db ctx q filters limit).length,
      q, detectQueryIntent q⟩, ?_, rfl, rfl, rfl, ?_, ?_⟩
  · simp only [globalSearch, Option.getD_some]
    rw [if_neg hneg]
  · exact length_jsSlice_le hlim _
  · rw [catsSize_buildCategories]
    exact length_jsSlice_le_self _ _

/-- Witness for C1 at a concrete input: limit 1, query `"integrations"`. -/
theorem results_capped_categories_uncapped_witness :
    ∃ body,
      (globalSearch ⟨[], [], [], []⟩ ⟨"u", "c", "user"⟩ (some "integrations")
          [] (some 1) [] 0 false).fst = SearchOutcome.ok body ∧
      body.results =
        jsSlice 1 (mergedResults ⟨[], [], [], []⟩ ⟨"u", "c", "user"⟩ "integrations" [] 1) ∧
      body.categories =
        buildCategories (mergedResults ⟨[], [], [], []⟩ ⟨"u", "c", "user"⟩ "integrations" [] 1) ∧
      body.totalCount =
        (mergedResults ⟨[], [], [], []⟩ ⟨"u", "c", "user"⟩ "integrations" [] 1).length ∧
      (((body.results.length : Int) ≤ 1) ∧
        body.results.length ≤ catsSize body.categories) :=
  results_capped_categories_uncapped ⟨[], [], [], []⟩ ⟨"u", "c", "user"⟩
    "integrations" [] 1 [] 0 false (by decide) (by decide)

/-- C2: the merge step concatenates the six adapters' outputs in the fixed
source order (lead, staff-account, agent, call, settings, navigation) and
sorts with a stable sort by priority score descending: the output is a
permutation of the concatenation, it is pairwise `scoreGE`-ordered, two
results with equal score retain their relative concatenation order, and
the handler's merged sequence is exactly this deterministic function of
the adapters' outputs. -/
theorem merged_sorted_desc_stable
    (leadsR usersR agentsR callsR settingsR navR : List SearchResult) :
    (sortResults (leadsR ++ usersR ++ agentsR ++ callsR ++ settingsR ++ navR)).Pairwise scoreGE ∧
    sortResults (leadsR ++ usersR ++ agentsR ++ callsR ++ settingsR ++ navR) ~
      (leadsR ++ usersR ++ agentsR ++ callsR ++ settingsR ++ navR) ∧
    (∀ a b : SearchResult, a.priorityScore = b.priorityScore →
      [a, b] <+ (leadsR ++ usersR ++ agentsR ++ callsR ++ settingsR ++ navR) →
      [a, b] <+ sortResults (leadsR ++ usersR ++ agentsR ++ callsR ++ settingsR ++ navR)) ∧
    (∀ db ctx query filters limit,
      mergedResults db ctx query filters limit =
        sortResults
          (searchLeads db filters ctx.companyId (detectQueryIntent query)
              (searchPattern query) limit ++
            searchUsers db filters ctx.companyId (decide (ctx.role = "admin"))
              (searchPattern query) limit ++
            searchAgents db filters ctx.companyId (searchPattern query) limit ++
            searchCalls db filters ctx.companyId (searchPattern query) limit ++
            searchSettings filters query ++
            searchNavigation query)) :=
  ⟨sortResults_sorted _, sortResults_perm _,
    fun _ _ hs hsub => sortResults_stable hs hsub,
    fun _ _ _ _ _ => rfl⟩

/-- Witness for C2's stability conjunct: two equal-score results emitted
by different adapters keep their concatenation order after sorting. -/
theorem merged_sorted_desc_stable_witness :
    [⟨"a", "setting", "", "", "", 50⟩, ⟨"b", "navigation", "", "", "", 50⟩] <+
      sortResults ([] ++ [] ++ [] ++ [] ++ [⟨"a", "setting", "", "", "", 50⟩] ++
        [⟨"b", "navigation", "", "", "", 50⟩]) :=
  (merged_sorted_desc_stable [] [] [] []
      [⟨"a", "setting", "", "", "", 50⟩] [⟨"b", "navigation", "", "", "", 50⟩]).2.2.1
    _ _ rfl (List.Sublist.refl _)

/-- C3: issuing search B while search A is in flight invalidates A's
cancellation token before B's request is sent (the generations differ),
and A's eventual response — delivered before or after B's — never mutates
the displayed results, categories or error state; after B's response the
displayed state reflects B only. -/
theorem stale_response_never_displayed (s : ClientState)
    (pA pB : SearchPayload) (msgA : String) :
    (issueSearch s).generation ≠ (issueSearch (issueSearch s)).generation ∧
    ((deliverSuccess (issueSearch (issueSearch s)) (issueSearch s).generation pA).results =
        (issueSearch (issueSearch s)).results ∧
      (deliverSuccess (issueSearch (issueSearch s)) (issueSearch s).generation pA).categories =
        (issueSearch (issueSearch s)).categories ∧
      (deliverSuccess (issueSearch (issueSearch s)) (issueSearch s).generation pA).error =
        (issueSearch (issueSearch s)).error) ∧
    ((deliverFailure (issueSearch (issueSearch s)) (issueSearch s).generation msgA).results =
        (issueSearch (issueSearch s)).results ∧
      (deliverFailure (issueSearch (issueSearch s)) (issueSearch s).generation msgA).error =
        (issueSearch (issueSearch s)).error) ∧
    (let sB := issueSearch (issueSearch s)
     let sB' := deliverSuccess sB sB.generation pB
     let sFinal := deliverSuccess sB' (issueSearch s).generation pA
     sFinal.results = pB.results ∧ sFinal.categories = pB.categories ∧
       sFinal.error = none) := by
  refine ⟨by simp [issueSearch], ?_, ?_, ?_⟩ <;>
    simp [issueSearch, deliverSuccess, deliverFailure]

/-- C4: a missing, empty or 1-character query short-circuits to the
success response `{ results: [], categories: {} }` for every store
content and every filter set — no adapter runs and no history row is
written. -/
theorem short_query_short_circuits (db : Database) (ctx : CallerCtx)
    (q? : Option String) (filters : List String) (limit? : Option Int)
    (store : List RecentRow) (now : Nat) (hist : Bool)
    (h : q? = none ∨ ∃ q, q? = some q ∧ q.length < 2) :
    (globalSearch db ctx q? filters limit? store now hist).fst =
      SearchOutcome.okEmpty ∧
    (globalSearch db ctx q? filters limit? store now hist).snd = store := by
  rcases h with rfl | ⟨q, rfl, hq⟩
  · exact ⟨rfl, rfl⟩
  · constructor <;>
      · simp only [globalSearch]
        rw [if_pos hq]

/-- Witness for C4: a 1-character query against a non-empty store with a
filter set. -/
theorem short_query_short_circuits_witness :
    (globalSearch ⟨[], [], [⟨"ag1", "c1", "a", "male", true⟩], []⟩
        ⟨"u", "c1", "admin"⟩ (some "a") ["leads"] (some 3)
        [⟨"u", "old", 0⟩] 5 false).fst = SearchOutcome.okEmpty ∧
    (globalSearch ⟨[], [], [⟨"ag1", "c1", "a", "male", true⟩], []⟩
        ⟨"u", "c1", "admin"⟩ (some "a") ["leads"] (some 3)
        [⟨"u", "old", 0⟩] 5 false).snd = [⟨"u", "old", 0⟩] :=
  short_query_short_circuits ⟨[], [], [⟨"ag1", "c1", "a", "male", true⟩], []⟩
    ⟨"u", "c1", "admin"⟩ (some "a") ["leads"] (some 3) [⟨"u", "old", 0⟩] 5 false
    (Or.inr ⟨"a", rfl, by decide⟩)

/-- C7: the recent-searches upsert is fire-and-forget — the HTTP outcome
is identical whether or not the history write fails, and for every valid
query the caller still receives the computed results, categories,
totalCount and intents with a success status. -/
theorem history_failure_never_changes_response (db : Database)
    (ctx : CallerCtx) (q? : Option String) (filters : List String)
    (limit? : Option Int) (store : List RecentRow) (now : Nat) :
    (globalSearch db ctx q? filters limit? store now true).fst =
      (globalSearch db ctx q? filters limit? store now false).fst ∧
    (∀ q, q? = some q → 2 ≤ q.length →
      ∃ body,
        (globalSearch db ctx q? filters limit? store now true).fst =
          SearchOutcome.ok body ∧
        body.results =
          jsSlice (limit?.getD 10) (mergedResults db ctx q filters (limit?.getD 10)) ∧
        body.categories =
          buildCategories (mergedResults db ctx q filters (limit?.getD 10)) ∧
        body.totalCount = (mergedResults db ctx q filters (limit?.getD 10)).length ∧
        body.query = q ∧
        body.intents = detectQueryIntent q) := by
  constructor
  · cases q? with
    | none => rfl
    | some q =>
      by_cases hq : q.length < 2
      · simp only [globalSearch]
        rw [if_pos hq, if_pos hq]
      · simp only [globalSearch]
        rw [if_neg hq, if_neg hq]
  · rintro q rfl hq
    have hneg : ¬(q.length < 2) := by omega
    refine ⟨⟨jsSlice (limit?.getD 10) (mergedResults db ctx q filters (limit?.getD 10)),
        buildCategories (mergedResults db ctx q filters (limit?.getD 10)),
        (mergedResults db ctx q filters (limit?.getD 10)).length,
        q, detectQueryIntent q⟩, ?_, rfl, rfl, rfl, rfl, rfl⟩
    simp only [globalSearch]
    rw [if_neg hneg]

/-- Witness for C7 at a concrete input: a valid query with a failing
history write still yields the computed success body. -/
theorem history_failure_never_changes_response_witness :
    (globalSearch ⟨[], [], [], []⟩ ⟨"u", "c", "user"⟩ (some "integrations")
        [] none [] 0 true).fst =
      (globalSearch ⟨[], [], [], []⟩ ⟨"u", "c", "user"⟩ (some "integrations")
        [] none [] 0 false).fst ∧
    ∃ body,
      (globalSearch ⟨[], [], [], []⟩ ⟨"u", "c", "user"⟩ (some "integrations")
          [] none [] 0 true).fst = SearchOutcome.ok body ∧
      body.results =
        jsSlice ((none : Option Int).getD 10)
          (mergedResults ⟨[], [], [], []⟩ ⟨"u", "c", "user"⟩ "integrations" []
            ((none : Option Int).getD 10)) ∧
      body.categories =
        buildCategories (mergedResults ⟨[], [], [], []⟩ ⟨"u", "c", "user"⟩
          "integrations" [] ((none : Option Int).getD 10)) ∧
      body.totalCount =
        (mergedResults ⟨[], [], [], []⟩ ⟨"u", "c", "user"⟩ "integrations" []
          ((none : Option Int).getD 10)).length ∧
      body.query = "integrations" ∧
      body.intents = detectQueryIntent "integrations" :=
  ⟨(history_failure_never_changes_response ⟨[], [], [], []⟩ ⟨"u", "c", "user"⟩
      (some "integrations") [] none [] 0).1,
    (history_failure_never_changes_response ⟨[], [], [], []⟩ ⟨"u", "c", "user"⟩
      (some "integrations") [] none [] 0).2 "integrations" rfl (by decide)⟩

/-- C8 counterexample: the pattern the aggregator sends to the store is
built from the raw lowercased query, not from the sanitized query — at
query `"a&bc"` the two differ, an agent whose name contains the literal
`a&bc` matches the actual pattern, and it would not match the
claimed sanitized pattern. -/
theorem ilike_pattern_not_sanitized :
    searchPattern "a&bc" ≠ "%" ++ lowerStr (escapeSearchQuery "a&bc") ++ "%" ∧
    escapeSearchQuery "a&bc" = "a bc" ∧
    searchAgents ⟨[], [], [⟨"ag1", "c1", "ZZa&bcZZ", "male", true⟩], []⟩ []
        "c1" (searchPattern "a&bc") 10 ≠ [] ∧
    likeMatch "ZZa&bcZZ" ("%" ++ lowerStr (escapeSearchQuery "a&bc") ++ "%") = false :=
  ⟨by decide, by decide, by decide, by decide⟩

/-- C8 as amended: every ILIKE-matching adapter receives the pattern
`'%' ++ lowercase(raw query) ++ '%'`; this coincides with the claimed
`'%' ++ lowercase(sanitize(query)) ++ '%'` exactly on queries free of
unsafe characters and whitespace (where sanitization is the identity). -/
theorem ilike_pattern_raw_lowercased (q : String)
    (h : ∀ c ∈ q.toList, specialChar c = false ∧ c.isWhitespace = false) :
    searchPattern q = "%" ++ lowerStr (escapeSearchQuery q) ++ "%" := by
  rw [escapeSearchQuery_eq_self h]
  rfl

/-- Witness for the amended C8 at the clean query `"john"`. -/
theorem ilike_pattern_raw_lowercased_witness :
    searchPattern "john" = "%" ++ lowerStr (escapeSearchQuery "john") ++ "%" :=
  ilike_pattern_raw_lowercased "john" (by decide)

/-- C9 counterexample: a wholly missing query is answered with the
success short-circuit response, not a client error; and a negative limit
is not replaced by the default 10 — the same request with limit `-1` and
with limit `10` produces different outcomes. -/
theorem missing_query_is_success_negative_limit_kept :
    (globalSearch ⟨[], [], [], []⟩ ⟨"u", "c", "user"⟩ none [] (some 5) [] 0 false).fst =
      SearchOutcome.okEmpty ∧
    (globalSearch ⟨[], [], [], []⟩ ⟨"u", "c", "user"⟩ (some "integrations") []
        (some (-1)) [] 0 false).fst ≠
      (globalSearch ⟨[], [], [], []⟩ ⟨"u", "c", "user"⟩ (some "integrations") []
        (some 10) [] 0 false).fst :=
  ⟨rfl, by decide⟩

/-- C9 as amended: malformed input is normalized rather than rejected —
an absent limit defaults to 10, a negative limit is kept and used as-is
in the final slice, and a wholly missing or empty query is answered with
the same empty success response as a 1-character query, not with a
client error. -/
theorem malformed_input_normalized (db : Database) (ctx : CallerCtx)
    (q? : Option String) (filters : List String) (store : List RecentRow)
    (now : Nat) (hist : Bool) :
    globalSearch db ctx q? filters none store now hist =
      globalSearch db ctx q? filters (some 10) store now hist ∧
    (q? = none ∨ q? = some "" →
      (globalSearch db ctx q? filters none store now hist).fst =
        SearchOutcome.okEmpty) ∧
    (∀ q (limit : Int), q? = some q → 2 ≤ q.length →
      ∃ body,
        (globalSearch db ctx q? filters (some limit) store now hist).fst =
          SearchOutcome.ok body ∧
        body.results = jsSlice limit (mergedResults db ctx q filters limit)) := by
  refine ⟨rfl, ?_, ?_⟩
  · rintro (rfl | rfl)
    · rfl
    · rfl
  · rintro q limit rfl hq
    have hneg : ¬(q.length < 2) := by omega
    refine ⟨⟨jsSlice limit (mergedResults db ctx q filters limit),
        buildCategories (mergedResults db ctx q filters limit),
        (mergedResults db ctx q filters limit).length,
        q, detectQueryIntent q⟩, ?_, rfl⟩
    simp only [globalSearch, Option.getD_some]
    rw [if_neg hneg]

/-- Witness for the amended C9: an empty query yields the success
short-circuit, and limit 1 slices the valid-query response. -/
theorem malformed_input_normalized_witness :
    (globalSearch ⟨[], [], [], []⟩ ⟨"u", "c", "user"⟩ (some "") [] none [] 0 false).fst =
      SearchOutcome.okEmpty ∧
    ∃ body,
      (globalSearch ⟨[], [], [], []⟩ ⟨"u", "c", "user"⟩ (some "integrations") []
          (some 1) [] 0 false).fst = SearchOutcome.ok body ∧
      body.results =
        jsSlice 1 (mergedResults ⟨[], [], [], []⟩ ⟨"u", "c", "user"⟩ "integrations" [] 1) :=
  ⟨(malformed_input_normalized ⟨[], [], [], []⟩ ⟨"u", "c", "user"⟩ (some "") []
      [] 0 false).2.1 (Or.inr rfl),
    (malformed_input_normalized ⟨[], [], [], []⟩ ⟨"u", "c", "user"⟩
      (some "integrations") [] [] 0 false).2.2 "integrations" 1 rfl (by decide)⟩

/-- C10: at query `"integrations"` with no filters, the static settings
catalogue and the static navigation catalogue each emit a result whose id
is `"integrations"` (one of type `setting`, one of type `navigation`);
the palette flattens the category map and locates the selected row by the
first index whose id matches, so both rows resolve to selection index
0. -/
theorem duplicate_result_ids_collide_in_palette :
    ∃ body,
      (globalSearch ⟨[], [], [], []⟩ ⟨"u1", "c1", "user"⟩ (some "integrations")
          [] none [] 0 false).fst = SearchOutcome.ok body ∧
      (flatCategories body.categories).length = 2 ∧
      ((flatCategories body.categories).getD 0 default).type = "navigation" ∧
      ((flatCategories body.categories).getD 0 default).id = "integrations" ∧
      ((flatCategories body.categories).getD 1 default).type = "setting" ∧
      ((flatCategories body.categories).getD 1 default).id = "integrations" ∧
      findIndexById (flatCategories body.categories)
        ((flatCategories body.categories).getD 0 default).id = 0 ∧
      findIndexById (flatCategories body.categories)
        ((flatCategories body.categories).getD 1 default).id = 0 := by
  refine ⟨_, rfl, ?_, ?_, ?_, ?_, ?_, ?_, ?_⟩ <;> decide

/-- C5: the recent-searches store keeps at most one row per
(caller, query) pair — a repeated identical query refreshes the timestamp
without changing length or keys — and after every insert the trigger
prunes the caller's rows to at most the 10 most recently touched; after
11 distinct queries by one caller exactly 10 remain and the dropped one
is the least-recently-touched. -/
theorem recent_searches_unique_and_pruned :
    (∀ (store : List RecentRow) (u q : String) (t : Nat),
      recentUnique store → recentUnique (upsertRecent store u q t)) ∧
    (∀ (store : List RecentRow) (u q : String) (t : Nat),
      store.any (fun r => r.userId = u && r.query = q) = true →
      (upsertRecent store u q t).length = store.length ∧
      (upsertRecent store u q t).map (fun r => (r.userId, r.query)) =
        store.map (fun r => (r.userId, r.query))) ∧
    (∀ (store : List RecentRow) (u q : String) (t : Nat),
      recentUnique store →
      store.any (fun r => r.userId = u && r.query = q) = false →
      (upsertRecent store u q t).countP (fun r => r.userId = u) ≤ 10) ∧
    (List.foldl (fun st (p : String × Nat) => upsertRecent st "u" p.1 p.2) []
        [("qa", 0), ("qb", 1), ("qc", 2), ("qd", 3), ("qe", 4), ("qf", 5),
          ("qg", 6), ("qh", 7), ("qi", 8), ("qj", 9), ("qk", 10)] =
      [⟨"u", "qb", 1⟩, ⟨"u", "qc", 2⟩, ⟨"u", "qd", 3⟩, ⟨"u", "qe", 4⟩,
        ⟨"u", "qf", 5⟩, ⟨"u", "qg", 6⟩, ⟨"u", "qh", 7⟩, ⟨"u", "qi", 8⟩,
        ⟨"u", "qj", 9⟩, ⟨"u", "qk", 10⟩]) := by
  refine ⟨?_, ?_, ?_, by decide⟩
  · intro store u q t huniq
    unfold upsertRecent
    split
    · exact recentUnique_touch u q t huniq
    · rename_i hany
      exact recentUnique_insert huniq (Bool.eq_false_iff.mpr hany)
  · intro store u q t hany
    unfold upsertRecent
    rw [if_pos hany]
    refine ⟨List.length_map _ _, ?_⟩
    rw [List.map_map]
    refine List.map_congr_left ?_
    intro r _
    simp only [Function.comp]
    split <;> rfl
  · intro store u q t huniq hnone
    unfold upsertRecent
    rw [if_neg (by simp [hnone])]
    exact countP_pruneRecent_le (recentUnique_append huniq hnone)

/-- Witness for C5 at a concrete store: a fresh insert stays unique and
within the cap; a repeated query keeps length and keys. -/
theorem recent_searches_unique_and_pruned_witness :
    recentUnique (upsertRecent [⟨"u", "qa", 0⟩] "u" "qb" 1) ∧
    (upsertRecent [⟨"u", "qa", 0⟩] "u" "qa" 5).length =
      ([⟨"u", "qa", 0⟩] : List RecentRow).length ∧
    (upsertRecent [⟨"u", "qa", 0⟩] "u" "qa" 5).map (fun r => (r.userId, r.query)) =
      ([⟨"u", "qa", 0⟩] : List RecentRow).map (fun r => (r.userId, r.query)) ∧
    (upsertRecent [⟨"u", "qa", 0⟩] "u" "qb" 1).countP (fun r => r.userId = "u") ≤ 10 :=
  ⟨recent_searches_unique_and_pruned.1 [⟨"u", "qa", 0⟩] "u" "qb" 1 (by decide),
    (recent_searches_unique_and_pruned.2.1 [⟨"u", "qa", 0⟩] "u" "qa" 5 (by decide)).1,
    (recent_searches_unique_and_pruned.2.1 [⟨"u", "qa", 0⟩] "u" "qa" 5 (by decide)).2,
    recent_searches_unique_and_pruned.2.2.1 [⟨"u", "qa", 0⟩] "u" "qb" 1
      (by decide) (by decide)⟩

/-- C6: the staff-account adapter yields the empty sequence (not an
error) for every non-privileged caller, and such a caller's response —
flat results and category buckets alike — never contains a result of type
`"user"`; a privileged caller searching `"john"` in a tenant holding the
lead "John Smith" and the staff account "John Doe" receives both in
`categories`, while a non-privileged caller issuing the identical search
receives the lead but never the staff-account entry. -/
theorem staff_accounts_only_for_privileged :
    (∀ (db : Database) (filters : List String) (companyId pat : String) (limit : Int),
      searchUsers db filters companyId false pat limit = []) ∧
    (∀ (db : Database) (ctx : CallerCtx) (q : String) (filters : List String)
        (limit : Int), ctx.role ≠ "admin" →
      ∀ r ∈ mergedResults db ctx q filters limit, r.type ≠ "user") ∧
    (∀ (db : Database) (ctx : CallerCtx) (q : String) (filters : List String)
        (limit : Int), ctx.role ≠ "admin" →
      (∀ r ∈ jsSlice limit (mergedResults db ctx q filters limit), r.type ≠ "user") ∧
      (∀ p ∈ buildCategories (mergedResults db ctx q filters limit),
        ∀ r ∈ p.2, r.type ≠ "user")) ∧
    (∃ body,
      (globalSearch johnDb ⟨"a1", "c1", "admin"⟩ (some "john") [] none [] 0 false).fst =
        SearchOutcome.ok body ∧
      body.categories.any (fun p => p.1 = "user" && p.2.any (fun r => r.id = "us1")) = true ∧
      body.categories.any (fun p => p.1 = "lead" && p.2.any (fun r => r.id = "ld1")) = true) ∧
    (∃ body,
      (globalSearch johnDb ⟨"b1", "c1", "user"⟩ (some "john") [] none [] 0 false).fst =
        SearchOutcome.ok body ∧
      body.categories.all (fun p => p.1 ≠ "user") = true ∧
      body.results.all (fun r => r.type ≠ "user") = true ∧
      body.categories.any (fun p => p.1 = "lead") = true) := by
  refine ⟨searchUsers_not_admin, ?_, ?_, ?_, ?_⟩
  · intro db ctx q filters limit hrole r hr
    exact mergedResults_no_user_type hrole hr
  · intro db ctx q filters limit hrole
    constructor
    · intro r hr
      exact mergedResults_no_user_type hrole ((jsSlice_sublist _ _).subset hr)
    · intro p hp r hr
      exact mergedResults_no_user_type hrole (mem_of_mem_buildCategories hp hr)
  · exact ⟨_, rfl, by decide, by decide⟩
  · exact ⟨_, rfl, by decide, by decide, by decide⟩

/-- Witness for C6's non-privileged conjunct at a concrete caller: the
lead result of the scenario tenant is not of type `"user"`. -/
theorem staff_accounts_only_for_privileged_witness :
    ({ id := "ld1", type := "lead", title := "John Smith", subtitle := "js@x.com",
        redirectUrl := "/leads/ld1", priorityScore := 100 } : SearchResult).type ≠ "user" :=
  staff_accounts_only_for_privileged.2.1 johnDb ⟨"b1", "c1", "user"⟩ "john" [] 10
    (by decide) _ (by decide)

end ORAHV3
